import Mathlib

/-!
Verification of the `iv` image viewer core (imageviewer.h): the IvImage
record lifecycle, address computation, error reporting, navigation,
channel cycling, zoom-to-fit, and the display transform.

Pixel-buffer addresses are modelled as byte offsets from the start of the
pixel buffer (buffer start = offset 0).  Bodies that appear inline in the
header (error_message, scanline, pixeladdr, cur, curspec) are translated
directly; bodies that live outside the header are modelled from the spec
and marked as such in their doc comments.
-/

/-- Image specification fields consumed by the viewer.
Modelled from the spec: imageio.h is not part of the sources; the spec
fields used here are width, height, channel count and per-channel byte
size. -/
structure ImageIOFormatSpec where
  width : Nat
  height : Nat
  nchannels : Nat
  channelbytes : Nat
  deriving DecidableEq

/-- Modelled from the spec: bytes-per-pixel, i.e. channel count times the
per-channel byte size (`ImageIOFormatSpec::pixel_bytes` lives in the
missing imageio.h). -/
def ImageIOFormatSpec.pixel_bytes (s : ImageIOFormatSpec) : Nat :=
  s.nchannels * s.channelbytes

/-- Modelled from the spec: scanline stride = width × bytes-per-pixel
(`ImageIOFormatSpec::scanline_bytes` lives in the missing imageio.h). -/
def ImageIOFormatSpec.scanline_bytes (s : ImageIOFormatSpec) : Nat :=
  s.width * s.pixel_bytes

/-- State of one `IvImage` record (imageviewer.h lines 110-125). The pixel
buffer is a byte list, `none` standing for a null `m_pixels` pointer. -/
structure IvImage where
  m_name : String
  m_nsubimages : Nat
  m_current_subimage : Nat
  m_spec : ImageIOFormatSpec
  m_pixels : Option (List Nat)
  m_spec_valid : Bool
  m_pixels_valid : Bool
  m_badfile : Bool
  m_err : String
  m_gamma : ℚ
  m_exposure : ℚ
  deriving DecidableEq

/-- Modelled from the spec: the `IvImage(filename)` constructor body is not
in the header; a fresh record knows only its file name, nothing is valid,
the buffer is null, gamma defaults to 1.0 and exposure to 0.0. -/
def IvImage.start (filename : String) : IvImage :=
  { m_name := filename
    m_nsubimages := 0
    m_current_subimage := 0
    m_spec := ⟨0, 0, 0, 0⟩
    m_pixels := none
    m_spec_valid := false
    m_pixels_valid := false
    m_badfile := false
    m_err := ""
    m_gamma := 1
    m_exposure := 0 }

/-- Source `IvImage::pixeladdr` (imageviewer.h lines 103-106):
`y * m_spec.scanline_bytes() + x * m_spec.pixel_bytes()`, as a byte offset
from the buffer start.  No residency or bounds check is performed. -/
def IvImage.pixeladdr (img : IvImage) (x y : Nat) : Nat :=
  y * img.m_spec.scanline_bytes + x * img.m_spec.pixel_bytes

/-- Source `IvImage::scanline` (imageviewer.h lines 79-81):
`y * m_spec.scanline_bytes()`, as a byte offset from the buffer start. -/
def IvImage.scanline (img : IvImage) (y : Nat) : Nat :=
  y * img.m_spec.scanline_bytes

/-- Source `IvImage::error_message` (imageviewer.h lines 67-71): return the stored
message and clear it.  Returns the message together with the new state. -/
def IvImage.error_message (img : IvImage) : String × IvImage :=
  (img.m_err, { img with m_err := "" })

/-- Source `IvImage::gamma` setter (imageviewer.h line 86). -/
def IvImage.setGamma (img : IvImage) (e : ℚ) : IvImage :=
  { img with m_gamma := e }

/-- Source `IvImage::exposure` setter (imageviewer.h line 88). -/
def IvImage.setExposure (img : IvImage) (e : ℚ) : IvImage :=
  { img with m_exposure := e }

/-- One file as the decode library sees it: a spec, a subimage count and
per-subimage pixel bytes; `none` for a subimage means the pixel fetch for
it fails (ReadError). -/
structure DiskFile where
  fspec : ImageIOFormatSpec
  nsub : Nat
  fpixels : Nat → Option (List Nat)

/-- The file system visible to the decode library: `none` means the file
cannot be opened (FileOpenError). -/
def Disk : Type := String → Option DiskFile

/-- Modelled from the spec: `IvImage::init_spec`'s body is not in the
header.  Open the file just far enough to fill the spec; on failure set
Broken and record an error, allocating no pixel storage; re-validates
(re-opens) on every call. -/
def IvImage.init_spec (disk : Disk) (img : IvImage) (filename : String) :
    Bool × IvImage :=
  match disk filename with
  | none =>
      (false, { img with
                  m_name := filename
                  m_badfile := true
                  m_spec_valid := false
                  m_err := "could not open file" })
  | some f =>
      (true, { img with
                 m_name := filename
                 m_spec := f.fspec
                 m_nsubimages := f.nsub
                 m_spec_valid := true
                 m_badfile := false })

/-- Modelled from the spec: `IvImage::read`'s body is not in the header.
If pixels are already valid for the requested subimage and `force` is
false, return success immediately with no disk I/O.  Otherwise perform a
full header+pixel read: FileOpenError sets Broken; ReadError during the
pixel fetch leaves the spec trusted, releases the pixel buffer (per the
state enumeration in imageviewer.h lines 127-137, the spec-resident state
has a null `m_pixels`) and records an error; success installs the complete
buffer.  Result: (success, new state, performed disk I/O). -/
def IvImage.read (disk : Disk) (img : IvImage) (subimage : Nat)
    (force : Bool) : Bool × IvImage × Bool :=
  if img.m_pixels_valid && img.m_current_subimage == subimage && !force then
    (true, img, false)
  else
    match disk img.m_name with
    | none =>
        (false, { img with
                    m_badfile := true
                    m_spec_valid := false
                    m_pixels := none
                    m_pixels_valid := false
                    m_err := "could not open file" }, true)
    | some f =>
        match f.fpixels subimage with
        | none =>
            (false, { img with
                        m_spec := f.fspec
                        m_nsubimages := f.nsub
                        m_spec_valid := true
                        m_badfile := false
                        m_pixels := none
                        m_pixels_valid := false
                        m_err := "could not read pixels" }, true)
        | some buf =>
            (true, { img with
                       m_spec := f.fspec
                       m_nsubimages := f.nsub
                       m_spec_valid := true
                       m_badfile := false
                       m_pixels := some buf
                       m_pixels_valid := true
                       m_current_subimage := subimage
                       m_err := "" }, true)

/-- The operations a client can perform on one `IvImage`. -/
inductive IvOp where
  | doInitSpec (filename : String)
  | doRead (subimage : Nat) (force : Bool)
  | doSetGamma (g : ℚ)
  | doSetExposure (e : ℚ)
  | doTakeError

/-- Apply one operation to a record. -/
def IvImage.applyOp (disk : Disk) (img : IvImage) : IvOp → IvImage
  | .doInitSpec f => (img.init_spec disk f).2
  | .doRead s force => (img.read disk s force).2.1
  | .doSetGamma g => img.setGamma g
  | .doSetExposure e => img.setExposure e
  | .doTakeError => (img.error_message).2

/-- Run a sequence of operations from a given record state. -/
def IvImage.runOps (disk : Disk) (img : IvImage) : List IvOp → IvImage
  | [] => img
  | op :: rest => IvImage.runOps disk (img.applyOp disk op) rest

/-- The buffer/flag coupling: the pixel buffer is non-null exactly when
the pixels-valid flag is set. -/
def pixelInvariant (img : IvImage) : Prop :=
  img.m_pixels.isSome = img.m_pixels_valid

/-- Viewer navigation / display state (imageviewer.h lines 279-283).
Only the fields the core state model needs are kept; the image list owns
its records. -/
structure ImageViewer where
  m_images : List IvImage
  m_current_image : Int
  m_current_channel : Int
  m_last_image : Int
  m_zoom : ℚ
  deriving DecidableEq

/-- Source `ImageViewer::cur` (imageviewer.h lines 187-191): NULL when the list is
empty, the record at `m_current_image` when that index is nonnegative,
NULL otherwise. -/
def ImageViewer.cur (v : ImageViewer) : Option IvImage :=
  if v.m_images.isEmpty then none
  else if 0 ≤ v.m_current_image then v.m_images.get? v.m_current_image.toNat
  else none

/-- Source `ImageViewer::curspec` (imageviewer.h lines 195-198): the current
record's spec, or NULL when there is no current record. -/
def ImageViewer.curspec (v : ImageViewer) : Option ImageIOFormatSpec :=
  match v.cur with
  | some img => some img.m_spec
  | none => none

/-- Modelled from the spec: `ImageViewer::prevImage`'s body is not in the
header.  Move the current index back by one, wrapping 0 → N-1, when the
collection is non-empty; no-op when empty; the previous current index is
saved into last-index unless it was -1. -/
def ImageViewer.prevImage (v : ImageViewer) : ImageViewer :=
  if v.m_images.isEmpty then v
  else
    { v with
        m_current_image :=
          if v.m_current_image = 0 then (v.m_images.length : Int) - 1
          else v.m_current_image - 1
        m_last_image :=
          if 0 ≤ v.m_current_image then v.m_current_image
          else v.m_last_image }

/-- Modelled from the spec: `ImageViewer::nextImage`'s body is not in the
header.  Move the current index forward by one, wrapping N-1 → 0, when the
collection is non-empty; no-op when empty; the previous current index is
saved into last-index unless it was -1. -/
def ImageViewer.nextImage (v : ImageViewer) : ImageViewer :=
  if v.m_images.isEmpty then v
  else
    { v with
        m_current_image :=
          if v.m_current_image = (v.m_images.length : Int) - 1 then 0
          else v.m_current_image + 1
        m_last_image :=
          if 0 ≤ v.m_current_image then v.m_current_image
          else v.m_last_image }

/-- Modelled from the spec: the bodies of `ImageViewer::viewChannelPrev` /
`viewChannelNext` are not in the header.  `cycle(c, nchannels, direction)`
moves to the adjacent concrete channel index, wrapping within
[0, nchannels-1]; direction is +1 or -1. -/
def cycleChannel (c : Int) (nchannels : Nat) (direction : Int) : Int :=
  if nchannels = 0 then c
  else (c + direction) % (nchannels : Int)

/-- Modelled from the spec: `ImageViewer::zoom_needed_to_fit`'s body is not
in the header.  The zoom that exactly fits an imageW × imageH image into a
windowW × windowH window: `min (windowW / imageW) (windowH / imageH)`. -/
def zoom_needed_to_fit (imageW imageH windowW windowH : ℚ) : ℚ :=
  min (windowW / imageW) (windowH / imageH)

/-- An imageW × imageH image displayed at a given zoom fits entirely inside
a windowW × windowH window. -/
def fitsInWindow (imageW imageH windowW windowH zoom : ℚ) : Prop :=
  zoom * imageW ≤ windowW ∧ zoom * imageH ≤ windowH

/-- A source pixel value as delivered to the display transform: either a
finite value or one of the non-finite floating-point classes. -/
inductive SourceValue where
  | nan
  | posinf
  | neginf
  | fin (r : ℝ)

/-- Clamp a real number to [0, 1]. -/
noncomputable def clamp01R (r : ℝ) : ℝ := max 0 (min 1 r)

/-- Modelled from the spec: clamp the (already channel-selected and
normalized) source value before the transform stages; non-finite values are
clamped to the range ends so no NaN/Inf enters the pipeline. -/
noncomputable def clampSource : SourceValue → ℝ
  | .nan => 0
  | .posinf => 1
  | .neginf => 0
  | .fin r => clamp01R r

/-- Modelled from the spec: the exposure stage of the display transform,
`v * 2^exposure` (exposure in photographic stops). -/
noncomputable def exposureStage (v e : ℝ) : ℝ := v * (2 : ℝ) ^ e

/-- Modelled from the spec: the gamma stage of the display transform,
`v ^ (1/gamma)`. -/
noncomputable def gammaStage (v g : ℝ) : ℝ := v ^ (1 / g)

/-- Modelled from the spec: the per-channel display transform, the shader
body being outside the header: clamp the source, multiply by 2^exposure,
then raise to 1/gamma, then clamp the displayed result to [0, 1]. -/
noncomputable def displayTransform (v : SourceValue) (e g : ℝ) : ℝ :=
  clamp01R (gammaStage (exposureStage (clampSource v) e) g)

/-- A record holding valid RGB pixels for subimage 0: spec 2×2, 3 channels,
1 byte per channel. -/
def residentImg : IvImage :=
  { IvImage.start "rgb.tif" with
      m_spec := ⟨2, 2, 3, 1⟩
      m_spec_valid := true
      m_pixels := some (List.replicate 12 0)
      m_pixels_valid := true }

/-- C2 counterexample: with 3 channels of 1 byte each, `pixeladdr 1 0` is
3 bytes past the buffer start (x times the per-PIXEL stride), not 1 byte
(x times the per-channel stride) as the claim states. -/
theorem pixeladdr_not_per_channel_stride :
    residentImg.pixeladdr 1 0 = 3
    ∧ residentImg.m_spec.channelbytes = 1
    ∧ residentImg.pixeladdr 1 0 ≠
        0 * residentImg.m_spec.scanline_bytes
          + 1 * residentImg.m_spec.channelbytes := by
  decide

/-- C2 (amended): `pixeladdr x y` is y times the scanline stride
(width × bytes-per-pixel) plus x times the per-pixel stride
(channel count × bytes per channel), and `scanline y` is y times the
scanline stride; both are pure computations from the spec with no bounds
checking. -/
theorem pixeladdr_scanline_formula (img : IvImage) (x y : Nat) :
    img.pixeladdr x y =
      y * (img.m_spec.width * img.m_spec.pixel_bytes)
        + x * (img.m_spec.nchannels * img.m_spec.channelbytes)
    ∧ img.scanline y = y * (img.m_spec.width * img.m_spec.pixel_bytes) :=
  ⟨rfl, rfl⟩

/-- C6: `error_message` returns the stored error and clears it: the first
call returns the stored message, leaves the stored message empty, and a
second call in a row returns the empty string. -/
theorem error_message_drains (img : IvImage) :
    (img.error_message).1 = img.m_err
    ∧ (img.error_message).2.m_err = ""
    ∧ ((img.error_message).2.error_message).1 = "" :=
  ⟨rfl, rfl, rfl⟩

/-- The pixel invariant is preserved by every single operation. -/
theorem pixelInvariant_applyOp (disk : Disk) (img : IvImage) (op : IvOp)
    (h : pixelInvariant img) : pixelInvariant (img.applyOp disk op) := by
  cases op with
  | doInitSpec f =>
      simp only [IvImage.applyOp, IvImage.init_spec]
      cases disk f <;> simpa [pixelInvariant] using h
  | doRead s force =>
      simp only [IvImage.applyOp, IvImage.read]
      split
      · exact h
      · cases hd : disk img.m_name with
        | none => simp [pixelInvariant]
        | some f => cases hp : f.fpixels s <;> simp [pixelInvariant, hp]
  | doSetGamma g =>
      simpa [pixelInvariant, IvImage.applyOp, IvImage.setGamma] using h
  | doSetExposure e =>
      simpa [pixelInvariant, IvImage.applyOp, IvImage.setExposure] using h
  | doTakeError =>
      simpa [pixelInvariant, IvImage.applyOp, IvImage.error_message] using h

/-- The pixel invariant is preserved by every operation sequence. -/
theorem pixelInvariant_runOps (disk : Disk) (ops : List IvOp) :
    ∀ img : IvImage, pixelInvariant img →
      pixelInvariant (img.runOps disk ops) := by
  induction ops with
  | nil => intro img h; exact h
  | cons op rest ih =>
      intro img h
      exact ih _ (pixelInvariant_applyOp disk img op h)

/-- C4: in every state reachable from a fresh record by any sequence of
operations (spec init, reads, parameter sets, error drains) against any
disk, the pixel buffer is non-null if and only if the pixels-valid flag is
true. -/
theorem buffer_nonnull_iff_pixels_valid (disk : Disk) (filename : String)
    (ops : List IvOp) :
    (((IvImage.start filename).runOps disk ops).m_pixels).isSome = true ↔
      ((IvImage.start filename).runOps disk ops).m_pixels_valid = true := by
  have h := pixelInvariant_runOps disk ops (IvImage.start filename) rfl
  unfold pixelInvariant at h
  rw [h]

/-- A disk on which no file can be opened. -/
def diskNone : Disk := fun _ => none

/-- C3: when pixels are already valid for the requested subimage and force
is false, `read` returns success immediately, leaves the state unchanged
and performs no disk I/O — so a second identical call performs none
either (at most one I/O across two consecutive calls); with force = true
`read` always performs the I/O. -/
theorem read_skips_io_when_resident (disk : Disk) (img : IvImage) (s : Nat) :
    (img.m_pixels_valid = true → img.m_current_subimage = s →
      img.read disk s false = (true, img, false)
      ∧ ((img.read disk s false).2.1.read disk s false).2.2 = false)
    ∧ (img.read disk s true).2.2 = true := by
  constructor
  · intro hv hs
    have h1 : img.read disk s false = (true, img, false) := by
      unfold IvImage.read
      rw [if_pos (by simp [hv, hs])]
    refine ⟨h1, ?_⟩
    rw [h1]
    simp only
    rw [h1]
  · unfold IvImage.read
    rw [if_neg (by simp)]
    cases hd : disk img.m_name with
    | none => simp
    | some f => cases hp : f.fpixels s <;> simp [hp]

/-- C3 witness: a concrete resident record on which a non-forced read is a
no-op success with no I/O. -/
theorem read_skips_io_when_resident_witness :
    residentImg.read diskNone 0 false = (true, residentImg, false) :=
  ((read_skips_io_when_resident diskNone residentImg 0).1 rfl rfl).1

/-- A file whose header opens fine but whose pixel fetch fails for every
subimage other than 0. -/
def errFile : DiskFile :=
  { fspec := ⟨2, 2, 3, 1⟩
    nsub := 1
    fpixels := fun s => if s = 0 then some (List.replicate 12 0) else none }

/-- A disk on which every name opens to `errFile`. -/
def diskOneSub : Disk := fun _ => some errFile

/-- C5 counterexample: a record holding a valid pixel buffer whose read of
subimage 1 fails during the pixel fetch; the resulting record has a NULL
pixel buffer — the previously valid buffer is released, not preserved as
the claim states (per the state enumeration in imageviewer.h lines
127-137, the spec-resident state has a null `m_pixels`). -/
theorem read_failure_buffer_not_preserved :
    residentImg.m_pixels = some (List.replicate 12 0)
    ∧ (residentImg.read diskOneSub 1 false).1 = false
    ∧ (residentImg.read diskOneSub 1 false).2.1.m_pixels = none
    ∧ (residentImg.read diskOneSub 1 false).2.1.m_spec_valid = true := by
  decide

/-- C5 (amended): when the file opens but the pixel fetch fails, `read`
fails and leaves the record spec-resident: the spec is valid and comes
from the file (still trusted), the pixel buffer is released (null, so no
partially written buffer is ever observable), the pixels-valid flag is
cleared, and an error message is set. -/
theorem read_failure_reverts_to_spec_resident (disk : Disk) (img : IvImage)
    (s : Nat) (f : DiskFile) (hf : disk img.m_name = some f)
    (hfail : (img.read disk s false).1 = false) :
    (img.read disk s false).2.1.m_spec_valid = true
    ∧ (img.read disk s false).2.1.m_spec = f.fspec
    ∧ (img.read disk s false).2.1.m_pixels = none
    ∧ (img.read disk s false).2.1.m_pixels_valid = false
    ∧ (img.read disk s false).2.1.m_err ≠ "" := by
  by_cases hres :
      (img.m_pixels_valid && img.m_current_subimage == s && !false) = true
  · unfold IvImage.read at hfail
    rw [if_pos hres] at hfail
    simp at hfail
  · unfold IvImage.read at hfail ⊢
    rw [if_neg hres] at hfail ⊢
    rw [hf] at hfail ⊢
    cases hp : f.fpixels s with
    | none => simp [hp]
    | some buf => simp [hp] at hfail

/-- C5 amended-claim witness: the concrete failing pixel fetch of the
counterexample, run through the amended theorem. -/
theorem read_failure_reverts_to_spec_resident_witness :
    (residentImg.read diskOneSub 1 false).2.1.m_spec_valid = true
    ∧ (residentImg.read diskOneSub 1 false).2.1.m_spec = errFile.fspec
    ∧ (residentImg.read diskOneSub 1 false).2.1.m_pixels = none
    ∧ (residentImg.read diskOneSub 1 false).2.1.m_pixels_valid = false
    ∧ (residentImg.read diskOneSub 1 false).2.1.m_err ≠ "" :=
  read_failure_reverts_to_spec_resident diskOneSub residentImg 1 errFile rfl
    (by decide)

/-- Navigation does not change the image list (prev). -/
theorem prevImage_m_images (v : ImageViewer) :
    (v.prevImage).m_images = v.m_images := by
  unfold ImageViewer.prevImage
  split <;> rfl

/-- Navigation does not change the image list (next). -/
theorem nextImage_m_images (v : ImageViewer) :
    (v.nextImage).m_images = v.m_images := by
  unfold ImageViewer.nextImage
  split <;> rfl

/-- Index movement of one `prevImage` step on a non-empty collection. -/
theorem prevImage_index (v : ImageViewer) (h : v.m_images ≠ []) :
    (v.prevImage).m_current_image =
      if v.m_current_image = 0 then (v.m_images.length : Int) - 1
      else v.m_current_image - 1 := by
  unfold ImageViewer.prevImage
  rw [if_neg (by simp [h])]

/-- Index movement of one `nextImage` step on a non-empty collection. -/
theorem nextImage_index (v : ImageViewer) (h : v.m_images ≠ []) :
    (v.nextImage).m_current_image =
      if v.m_current_image = (v.m_images.length : Int) - 1 then 0
      else v.m_current_image + 1 := by
  unfold ImageViewer.nextImage
  rw [if_neg (by simp [h])]

/-- Iterating `prevImage` k ≤ N times from index 0 lands on index N - k
(taken as 0 at k = 0), the image list unchanged. -/
theorem prevImage_iterate (v : ImageViewer) (hne : v.m_images ≠ [])
    (h0 : v.m_current_image = 0) :
    ∀ k, k ≤ v.m_images.length →
      (ImageViewer.prevImage^[k] v).m_images = v.m_images ∧
      (ImageViewer.prevImage^[k] v).m_current_image =
        (if k = 0 then 0 else (v.m_images.length : Int) - k) := by
  intro k
  induction k with
  | zero =>
      intro _
      exact ⟨rfl, by simpa using h0⟩
  | succ n ih =>
      intro hk
      have hn := ih (Nat.le_of_succ_le hk)
      rw [Function.iterate_succ_apply']
      have hne' : (ImageViewer.prevImage^[n] v).m_images ≠ [] := by
        rw [hn.1]; exact hne
      refine ⟨by rw [prevImage_m_images, hn.1], ?_⟩
      rw [prevImage_index _ hne', hn.1, hn.2]
      have hL : 1 ≤ (v.m_images.length : Int) := by
        have := List.length_pos.mpr hne
        exact_mod_cast this
      by_cases hz : n = 0
      · subst hz
        simp
      · have hnL : (n : Int) + 1 ≤ (v.m_images.length : Int) := by
          exact_mod_cast hk
        rw [if_neg hz, if_neg (by omega), if_neg (Nat.succ_ne_zero n)]
        push_cast
        ring

/-- C7: on an empty collection `nextImage` and `prevImage` are no-ops; on a
non-empty collection of size N they move the current index by +1 / -1 with
wraparound N-1 → 0 and 0 → N-1, so N consecutive `prevImage` calls starting
from index 0 return the current index to 0. -/
theorem nav_next_prev_wraparound (v : ImageViewer) :
    (v.m_images = [] → v.nextImage = v ∧ v.prevImage = v)
    ∧ (v.m_images ≠ [] →
        (v.m_current_image = (v.m_images.length : Int) - 1 →
          (v.nextImage).m_current_image = 0)
        ∧ (v.m_current_image = 0 →
          (v.prevImage).m_current_image = (v.m_images.length : Int) - 1)
        ∧ (v.m_current_image ≠ (v.m_images.length : Int) - 1 →
          (v.nextImage).m_current_image = v.m_current_image + 1)
        ∧ (v.m_current_image ≠ 0 →
          (v.prevImage).m_current_image = v.m_current_image - 1)
        ∧ (v.m_current_image = 0 →
          (ImageViewer.prevImage^[v.m_images.length] v).m_current_image
            = 0)) := by
  constructor
  · intro h
    constructor
    · unfold ImageViewer.nextImage
      rw [if_pos (by simp [h])]
    · unfold ImageViewer.prevImage
      rw [if_pos (by simp [h])]
  · intro hne
    refine ⟨?_, ?_, ?_, ?_, ?_⟩
    · intro h
      rw [nextImage_index v hne, if_pos h]
    · intro h
      rw [prevImage_index v hne, if_pos h]
    · intro h
      rw [nextImage_index v hne, if_neg h]
    · intro h
      rw [prevImage_index v hne, if_neg h]
    · intro h0
      have h := (prevImage_iterate v hne h0 v.m_images.length le_rfl).2
      rw [h, if_neg (by simpa [← List.length_pos] using hne)]
      simp

/-- A viewer holding three images with the first one current. -/
def viewer3 : ImageViewer :=
  { m_images := [IvImage.start "a.exr", IvImage.start "b.exr",
                 IvImage.start "c.exr"]
    m_current_image := 0
    m_current_channel := -1
    m_last_image := -1
    m_zoom := 1 }

/-- C7 witness: on the concrete three-image viewer, one `prevImage` from
index 0 wraps to index 2 and three consecutive `prevImage` calls return to
index 0. -/
theorem nav_next_prev_wraparound_witness :
    (viewer3.prevImage).m_current_image = 2
    ∧ (ImageViewer.prevImage^[3] viewer3).m_current_image = 0 := by
  have h := (nav_next_prev_wraparound viewer3).2 (by decide)
  constructor
  · have h2 := h.2.1 rfl
    norm_num at h2
    exact h2
  · exact h.2.2.2.2 rfl

/-- C8: channel cycling wraps within [0, nchannels-1]: stepping forward
from index nchannels-1 yields 0, stepping backward from index 0 yields
nchannels-1, and any step that stays inside the range just moves by the
direction. -/
theorem channel_cycle_wraps (n : Nat) (c d : Int) (hn : 0 < n) :
    cycleChannel ((n : Int) - 1) n 1 = 0
    ∧ cycleChannel 0 n (-1) = (n : Int) - 1
    ∧ (0 ≤ c + d → c + d < (n : Int) → cycleChannel c n d = c + d) := by
  have hn' : n ≠ 0 := Nat.pos_iff_ne_zero.mp hn
  have hL : 1 ≤ (n : Int) := by exact_mod_cast hn
  refine ⟨?_, ?_, ?_⟩
  · unfold cycleChannel
    rw [if_neg hn', show (n : Int) - 1 + 1 = n by ring, Int.emod_self]
  · unfold cycleChannel
    rw [if_neg hn',
      show (0 : Int) + -1 = (n : Int) - 1 + n * (-1) by ring,
      Int.add_mul_emod_self_left, Int.emod_eq_of_lt (by omega) (by omega)]
  · intro h1 h2
    unfold cycleChannel
    rw [if_neg hn']
    exact Int.emod_eq_of_lt h1 h2

/-- C8 witness: with three channels, cycling forward from index 2 yields
index 0 and cycling backward from index 0 yields index 2. -/
theorem channel_cycle_wraps_witness :
    cycleChannel 2 3 1 = 0 ∧ cycleChannel 0 3 (-1) = 2 := by
  have h := channel_cycle_wraps 3 0 0 (by decide)
  norm_num at h
  exact ⟨h.1, h.2.1⟩

/-- C9: `zoom_needed_to_fit` is the largest zoom at which the image fits in
the window (a zoom fits exactly when it is at most min(windowW/imageW,
windowH/imageH)); in particular an 800×600 image in a 400×300 window gives
zoom 1/2, and in a 400×600 window also 1/2. -/
theorem zoom_to_fit_largest (imageW imageH windowW windowH : ℚ)
    (hw : 0 < imageW) (hh : 0 < imageH) :
    (∀ z : ℚ, fitsInWindow imageW imageH windowW windowH z ↔
      z ≤ zoom_needed_to_fit imageW imageH windowW windowH)
    ∧ zoom_needed_to_fit 800 600 400 300 = 1/2
    ∧ zoom_needed_to_fit 800 600 400 600 = 1/2 := by
  refine ⟨?_, ?_, ?_⟩
  · intro z
    unfold fitsInWindow zoom_needed_to_fit
    rw [le_min_iff, le_div_iff₀ hw, le_div_iff₀ hh]
  · unfold zoom_needed_to_fit
    norm_num
  · unfold zoom_needed_to_fit
    rw [min_def]
    norm_num

/-- C9 witness: the 800×600 image in a 400×300 window: the computed zoom is
1/2 and the image fits at that zoom. -/
theorem zoom_to_fit_largest_witness :
    zoom_needed_to_fit 800 600 400 300 = 1/2
    ∧ fitsInWindow 800 600 400 300 (1/2) := by
  have h := zoom_to_fit_largest 800 600 400 300 (by norm_num) (by norm_num)
  exact ⟨h.2.1, (h.1 (1/2)).mpr (le_of_eq h.2.1.symm)⟩

/-- Closed form of `ImageViewer.cur` with the empty test as a propositional
if. -/
theorem cur_eq (v : ImageViewer) :
    v.cur =
      if v.m_images = [] then none
      else if 0 ≤ v.m_current_image then
        v.m_images.get? v.m_current_image.toNat
      else none := by
  unfold ImageViewer.cur
  by_cases he : v.m_images = [] <;> simp [he]

/-- C10: under the collection invariant (current index below the list
length), `cur` returns NULL exactly when the collection is empty or the
current index is negative, otherwise it returns the record stored at the
current index (never an out-of-bounds access); `curspec` is NULL exactly
when `cur` is, and otherwise is the spec of the record `cur` returns. -/
theorem cur_curspec_null (v : ImageViewer)
    (hinv : v.m_current_image < (v.m_images.length : Int)) :
    (v.cur = none ↔ (v.m_images = [] ∨ v.m_current_image < 0))
    ∧ (v.m_images ≠ [] → 0 ≤ v.m_current_image →
        v.cur = v.m_images.get? v.m_current_image.toNat ∧ v.cur ≠ none)
    ∧ (v.curspec = none ↔ v.cur = none)
    ∧ (∀ img, v.cur = some img → v.curspec = some img.m_spec) := by
  have hmain : v.m_images ≠ [] → 0 ≤ v.m_current_image →
      v.cur = v.m_images.get? v.m_current_image.toNat ∧ v.cur ≠ none := by
    intro he hc
    have hlt : v.m_current_image.toNat < v.m_images.length := by omega
    have hsome := List.get?_eq_get hlt
    constructor
    · rw [cur_eq, if_neg he, if_pos hc]
    · rw [cur_eq, if_neg he, if_pos hc, hsome]
      simp
  refine ⟨?_, hmain, ?_, ?_⟩
  · constructor
    · intro h
      by_cases he : v.m_images = []
      · exact Or.inl he
      · by_cases hc : 0 ≤ v.m_current_image
        · exact absurd h (hmain he hc).2
        · exact Or.inr (by omega)
    · intro h
      rcases h with he | hc
      · rw [cur_eq, if_pos he]
      · rw [cur_eq]
        by_cases he : v.m_images = []
        · rw [if_pos he]
        · rw [if_neg he, if_neg (by omega)]
  · unfold ImageViewer.curspec
    cases v.cur <;> simp
  · intro img h
    unfold ImageViewer.curspec
    rw [h]

/-- C10 witness: on the concrete three-image viewer with index 0, `cur` is
non-NULL and `curspec` is the first record's spec. -/
theorem cur_curspec_null_witness :
    viewer3.cur ≠ none
    ∧ viewer3.curspec = some (IvImage.start "a.exr").m_spec := by
  have h := cur_curspec_null viewer3 (by decide)
  exact ⟨(h.2.1 (by decide) (by decide)).2, h.2.2.2 _ (by decide)⟩

/-- The clamped source value always lies in [0, 1]. -/
theorem clampSource_mem (v : SourceValue) :
    0 ≤ clampSource v ∧ clampSource v ≤ 1 := by
  cases v with
  | nan => exact ⟨le_refl 0, zero_le_one⟩
  | posinf => exact ⟨zero_le_one, le_refl 1⟩
  | neginf => exact ⟨le_refl 0, zero_le_one⟩
  | fin r =>
      exact ⟨le_max_left 0 _, max_le zero_le_one (min_le_left 1 r)⟩

/-- Clamping to [0, 1] is the identity on [0, 1]. -/
theorem clamp01R_of_mem {r : ℝ} (h0 : 0 ≤ r) (h1 : r ≤ 1) :
    clamp01R r = r := by
  unfold clamp01R
  rw [min_eq_right h1, max_eq_right h0]

/-- C1: the displayed intensity is clamp((v * 2^exposure)^(1/gamma), 0, 1)
with the exposure multiply applied before the gamma exponent, the source
value clamped first (so non-finite inputs cannot propagate), and the
result always a finite real in [0, 1] — never NaN or Inf; at exposure 0
and gamma 1 the transform is exactly the clamp of the source value. -/
theorem display_transform_correct (v : SourceValue) (e g : ℝ) :
    displayTransform v e g =
      max 0 (min 1 ((clampSource v * (2 : ℝ) ^ e) ^ (1 / g)))
    ∧ 0 ≤ displayTransform v e g
    ∧ displayTransform v e g ≤ 1
    ∧ displayTransform v 0 1 = clampSource v := by
  refine ⟨rfl, le_max_left 0 _, ?_, ?_⟩
  · exact max_le zero_le_one (min_le_left 1 _)
  · show clamp01R (gammaStage (exposureStage (clampSource v) 0) 1)
      = clampSource v
    unfold exposureStage gammaStage
    rw [Real.rpow_zero, mul_one, show (1 : ℝ) / 1 = 1 by norm_num,
      Real.rpow_one]
    exact clamp01R_of_mem (clampSource_mem v).1 (clampSource_mem v).2
